import Mathlib

/-!
Shallow embedding of `src/uploader.py`: a script that scans a recordings
directory for finished `.mp4` files, renames each according to its creation
timestamp, uploads it to S3 under a date-based key, and deletes the local
copy after a successful upload.  Filesystem and S3 effects are modelled by
an explicit directory listing and an event trace; the outcome of each S3
upload call is an oracle parameter.
-/

namespace Uploader

/-- A calendar datetime, the result of `datetime.fromtimestamp` on a stat
timestamp.  Stat creation timestamps are modelled directly as the calendar
datetimes that `fromtimestamp` would produce from them. -/
structure DateTime where
  year : Nat
  month : Nat
  day : Nat
  hour : Nat
  minute : Nat
  second : Nat
deriving DecidableEq

/-- The fields of `os.stat_result` that the program reads.  `st_birthtime`
is `none` when the platform does not provide the attribute; `st_mtime` is
modelled as an integer timestamp used only for ordering. -/
structure FileStat where
  st_birthtime : Option DateTime
  st_ctime : DateTime
  st_mtime : Int
deriving DecidableEq

/-- A directory entry as yielded by `Path.iterdir`, together with its stat
data. -/
structure DirEntry where
  name : String
  isFile : Bool
  stat : FileStat
deriving DecidableEq

/-- `PurePath.suffix`: the extension of the name from its last dot, and the
empty string when that dot is absent, leading, or trailing. -/
def pathSuffix (name : String) : String :=
  let cs := name.data
  let t := (cs.reverse.takeWhile (fun c => c != '.')).length
  if t = cs.length then ""
  else
    let i := cs.length - t - 1
    if 0 < i ∧ i < cs.length - 1 then String.mk (cs.drop i) else ""

/-- The selection test of `get_files_to_upload`:
`f.is_file() and f.suffix == ".mp4"`. -/
def isMp4 (f : DirEntry) : Bool :=
  f.isFile && (pathSuffix f.name == ".mp4")

/-- Comparison used by `sorted(..., key=lambda f: f.stat().st_mtime)`. -/
def mtLe (f g : DirEntry) : Prop :=
  f.stat.st_mtime ≤ g.stat.st_mtime

instance : DecidableRel mtLe :=
  fun f g => inferInstanceAs (Decidable (f.stat.st_mtime ≤ g.stat.st_mtime))

instance : IsTotal DirEntry mtLe :=
  ⟨fun f g => Int.le_total f.stat.st_mtime g.stat.st_mtime⟩

instance : IsTrans DirEntry mtLe :=
  ⟨fun _ _ _ h h2 => le_trans h h2⟩

/-- Python's `sorted` by modification time (a stable ascending sort). -/
def sortByMtime (l : List DirEntry) : List DirEntry :=
  List.insertionSort mtLe l

/-- `get_files_to_upload`, over the listing of the recordings directory:
the regular `.mp4` files sorted by modification time; the empty list when
there are fewer than two of them, otherwise all but the last (`files[:-1]`). -/
def get_files_to_upload (listing : List DirEntry) : List DirEntry :=
  let files := sortByMtime (listing.filter isMp4)
  if files.length < 2 then [] else files.dropLast

/-- `get_birth_datetime`: the birth time when the stat result has the
attribute, the metadata change time `st_ctime` otherwise. -/
def get_birth_datetime (st : FileStat) : DateTime :=
  match st.st_birthtime with
  | some b => b
  | none => st.st_ctime

/-- The decimal digit character for `n < 10` (`'9'` past that range, which
is never reached by `natDecChars`). -/
def decChar (n : Nat) : Char :=
  if n = 0 then '0' else if n = 1 then '1' else if n = 2 then '2'
  else if n = 3 then '3' else if n = 4 then '4' else if n = 5 then '5'
  else if n = 6 then '6' else if n = 7 then '7' else if n = 8 then '8'
  else '9'

/-- Fuel-indexed decimal rendering; `fuel` bounds the number of digits
produced and is always supplied large enough. -/
def natDecCharsAux (fuel n : Nat) : List Char :=
  match fuel with
  | 0 => []
  | k + 1 =>
    if n < 10 then [decChar n]
    else natDecCharsAux k (n / 10) ++ [decChar (n % 10)]

/-- The decimal digits of `n`, most significant first. -/
def natDecChars (n : Nat) : List Char :=
  natDecCharsAux (n + 1) n

/-- `%0wd`-style zero-padded decimal rendering, as `strftime` produces for
the numeric fields. -/
def padNat (w n : Nat) : String :=
  String.mk (List.replicate (w - (natDecChars n).length) '0' ++ natDecChars n)

/-- `birth_dt.strftime("gcam_%d%m%Y_%H%M%S.mp4")`. -/
def gcamName (d : DateTime) : String :=
  "gcam_" ++ padNat 2 d.day ++ padNat 2 d.month ++ padNat 4 d.year ++ "_"
    ++ padNat 2 d.hour ++ padNat 2 d.minute ++ padNat 2 d.second ++ ".mp4"

/-- `birth_dt.strftime("%Y-%m-%d")`, the date folder of the S3 key. -/
def dateFolder (d : DateTime) : String :=
  padNat 4 d.year ++ "-" ++ padNat 2 d.month ++ "-" ++ padNat 2 d.day

/-- The S3 key construction of `upload_file_to_s3`:
`f"{pfx}/{date_folder}/{mp4_name}"` when the configured key prefix string
is truthy (non-empty), `f"{date_folder}/{mp4_name}"` otherwise. -/
def mkS3Key (pfx : String) (d : DateTime) : String :=
  if pfx ≠ "" then pfx ++ "/" ++ dateFolder d ++ "/" ++ gcamName d
  else dateFolder d ++ "/" ++ gcamName d

/-- Observable actions of the program, in order of occurrence. -/
inductive Event where
  | createClient (region : String)
  | scanDir (dir : String)
  | renameFile (oldName newName : String)
  | printMsg (msg : String)
  | uploadCall (localPath bucket key : String)
  | unlinkFile (name : String)
deriving DecidableEq

/-- Outcome of the single `s3_client.upload_file` call: success, or one of
the two caught exception classes carrying its message. -/
inductive UploadOutcome where
  | success
  | botoCoreError (msg : String)
  | clientError (msg : String)
deriving DecidableEq

/-- The exception message, `none` on success. -/
def UploadOutcome.errMsg : UploadOutcome → Option String
  | .success => none
  | .botoCoreError m => some m
  | .clientError m => some m

/-- `Path.rename`: the entry named `old` is now named `new`; a pre-existing
entry named `new` is overwritten. -/
def renameEntry (fs : List DirEntry) (old new : String) : List DirEntry :=
  fs.filterMap (fun e =>
    if e.name = old then some { e with name := new }
    else if e.name = new then none else some e)

/-- `Path.unlink`. -/
def unlinkEntry (fs : List DirEntry) (nm : String) : List DirEntry :=
  fs.filter (fun e => e.name != nm)

/-- Result of one `upload_file_to_s3` call: the returned boolean, the
directory contents afterwards, and the event trace. -/
structure UploadResult where
  ret : Bool
  fs : List DirEntry
  trace : List Event
deriving DecidableEq

/-- `upload_file_to_s3`: compute the timestamp-derived name and key, rename
the file, attempt the upload (outcome given by `oc`), and on success unlink
the renamed local copy.  The Boto exceptions are the only ones modelled;
they arise at the upload call and are caught by the handler. -/
def upload_file_to_s3 (f : DirEntry) (bucket pfx rd : String)
    (oc : UploadOutcome) (fs : List DirEntry) : UploadResult :=
  let birth_dt := get_birth_datetime f.stat
  let mp4_name := gcamName birth_dt
  let fs1 := renameEntry fs f.name mp4_name
  let s3_key := mkS3Key pfx birth_dt
  let pre : List Event :=
    [.renameFile f.name mp4_name,
     .printMsg ("Uploading to S3: s3://" ++ bucket ++ "/" ++ s3_key),
     .uploadCall (rd ++ "/" ++ mp4_name) bucket s3_key]
  match oc with
  | .success =>
      { ret := true, fs := unlinkEntry fs1 mp4_name,
        trace := pre ++ [.unlinkFile mp4_name,
                         .printMsg ("Deleted local file: " ++ mp4_name)] }
  | .botoCoreError m =>
      { ret := false, fs := fs1,
        trace := pre ++ [.printMsg ("S3 upload failed for " ++ f.name ++ ": " ++ m)] }
  | .clientError m =>
      { ret := false, fs := fs1,
        trace := pre ++ [.printMsg ("S3 upload failed for " ++ f.name ++ ": " ++ m)] }

/-- The `for mp4_file in files_to_process` loop of `main`: the boolean
returned by each upload is discarded and processing continues with the
remaining files. -/
def runUploads (files : List DirEntry) (bucket pfx rd : String)
    (oracle : DirEntry → UploadOutcome) (fs : List DirEntry) :
    List DirEntry × List Event :=
  match files with
  | [] => (fs, [])
  | f :: rest =>
      let r := upload_file_to_s3 f bucket pfx rd (oracle f) fs
      let rec2 := runUploads rest bucket pfx rd oracle r.fs
      (rec2.1, r.trace ++ rec2.2)

/-- Python truthiness of an `os.getenv` result: `None` and `""` are falsy. -/
def truthy : Option String → Bool
  | none => false
  | some s => s != ""

/-- `str.rstrip("/")`. -/
def rstripSlash (s : String) : String :=
  String.mk ((s.data.reverse.dropWhile (fun c => c == '/')).reverse)

/-- The environment variables the program reads. -/
structure Env where
  aws_region : Option String
  s3_bucket_name : Option String
  s3_prefix : Option String
deriving DecidableEq

/-- How `main` terminates: the uncaught `RuntimeError`, `sys.exit(code)`,
or falling off the end. -/
inductive MainResult where
  | runtimeError (msg : String)
  | exited (code : Nat)
  | finished
deriving DecidableEq

/-- Result of a run of `main`. -/
structure MainRun where
  result : MainResult
  fs : List DirEntry
  trace : List Event
deriving DecidableEq

/-- `main`, over a given environment, recordings-directory listing and
upload oracle. -/
def main (env : Env) (listing : List DirEntry)
    (oracle : DirEntry → UploadOutcome) : MainRun :=
  if !(truthy env.aws_region && truthy env.s3_bucket_name) then
    { result := .runtimeError "Missing required AWS env variables",
      fs := listing, trace := [] }
  else
    let pfx := rstripSlash ((env.s3_prefix).getD "")
    let bucket := (env.s3_bucket_name).getD ""
    let region := (env.aws_region).getD ""
    let pre : List Event := [.createClient region, .scanDir "recordings"]
    let files := get_files_to_upload listing
    if files.isEmpty then
      { result := .exited 0, fs := listing,
        trace := pre ++ [.printMsg "Not enough files to process"] }
    else
      let r := runUploads files bucket pfx "recordings" oracle listing
      { result := .finished, fs := r.1, trace := pre ++ r.2 }

/-- Recogniser for upload-call events. -/
def isUploadCall : Event → Bool
  | .uploadCall _ _ _ => true
  | _ => false

/-- Recogniser for rename events whose source is `nm`. -/
def isRenameFrom (nm : String) : Event → Bool
  | .renameFile old _ => old == nm
  | _ => false

/-- Recogniser for rename events. -/
def isRename : Event → Bool
  | .renameFile _ _ => true
  | _ => false

/-- Recogniser for unlink events. -/
def isUnlink : Event → Bool
  | .unlinkFile _ => true
  | _ => false

/-- Adjacent-character relation forbidding a doubled slash. -/
def slashR (a b : Char) : Prop :=
  ¬(a = '/' ∧ b = '/')

instance decSlashR : DecidableRel slashR :=
  fun a b => inferInstanceAs (Decidable ¬(a = '/' ∧ b = '/'))

/-- No two consecutive slashes in the string. -/
def noDoubleSlash (s : String) : Prop :=
  List.Chain' slashR s.data

instance decNoDoubleSlash (s : String) : Decidable (noDoubleSlash s) :=
  inferInstanceAs (Decidable (List.Chain' slashR s.data))

/-- Concrete sample data used by the closed witness statements. -/
def dt0 : DateTime := ⟨2024, 1, 2, 3, 4, 5⟩

/-- Sample datetime standing for a metadata change time. -/
def dtC : DateTime := ⟨2023, 12, 31, 23, 59, 58⟩

/-- Sample stat with a birth time. -/
def st0 : FileStat := ⟨some dt0, dtC, 100⟩

/-- Sample stat without a birth time. -/
def stN : FileStat := ⟨none, dtC, 200⟩

/-- Sample entry with a birth time. -/
def f0 : DirEntry := ⟨"a.mp4", true, st0⟩

/-- Sample entry without a birth time, newer than `f0`. -/
def f1 : DirEntry := ⟨"b.mp4", true, stN⟩

/-- Sample entry newer than both `f0` and `f1`. -/
def f2 : DirEntry := ⟨"c.mp4", true, ⟨some dt0, dtC, 300⟩⟩

/-- Oracle that always succeeds. -/
def orc0 : DirEntry → UploadOutcome := fun _ => .success

/-! ### Helper lemmas about characters and strings -/

theorem sdata_mk (l : List Char) : (String.mk l).data = l := rfl

theorem sdata_append (s t : String) : (s ++ t).data = s.data ++ t.data := rfl

theorem decChar_ne_slash (n : Nat) : decChar n ≠ '/' := by
  unfold decChar
  repeat' split
  all_goals decide

theorem natDecCharsAux_ne_slash (fuel : Nat) :
    ∀ (n : Nat), ∀ c ∈ natDecCharsAux fuel n, c ≠ '/' := by
  induction fuel with
  | zero => intro n c hc; simp [natDecCharsAux] at hc
  | succ k ih =>
    intro n c hc
    simp only [natDecCharsAux] at hc
    by_cases h : n < 10
    · simp [h] at hc
      subst hc
      exact decChar_ne_slash n
    · simp [h, List.mem_append] at hc
      rcases hc with hc | hc
      · exact ih (n / 10) c hc
      · subst hc
        exact decChar_ne_slash (n % 10)

theorem natDecChars_ne_slash (n : Nat) : ∀ c ∈ natDecChars n, c ≠ '/' :=
  natDecCharsAux_ne_slash (n + 1) n

theorem natDecChars_ne_nil (n : Nat) : natDecChars n ≠ [] := by
  unfold natDecChars natDecCharsAux
  by_cases h : n < 10 <;> simp [h]

theorem padNat_ne_slash (w n : Nat) : ∀ c ∈ (padNat w n).data, c ≠ '/' := by
  intro c hc
  simp only [padNat, sdata_mk, List.mem_append] at hc
  rcases hc with hc | hc
  · rw [List.eq_of_mem_replicate hc]
    decide
  · exact natDecChars_ne_slash n c hc

theorem padNat_ne_nil (w n : Nat) : (padNat w n).data ≠ [] := by
  simp only [padNat, sdata_mk]
  intro h
  rcases List.append_eq_nil.mp h with ⟨_, h2⟩
  exact natDecChars_ne_nil n h2

theorem all_ne_slash_append (l₁ l₂ : List Char)
    (h₁ : ∀ c ∈ l₁, c ≠ '/') (h₂ : ∀ c ∈ l₂, c ≠ '/') :
    ∀ c ∈ l₁ ++ l₂, c ≠ '/' := by
  intro c hc
  rcases List.mem_append.mp hc with h | h
  · exact h₁ c h
  · exact h₂ c h

theorem append_ne_nil_left (l₁ l₂ : List Char) (h : l₁ ≠ []) :
    l₁ ++ l₂ ≠ [] := by
  intro h0
  exact h (List.append_eq_nil.mp h0).1

theorem dateFolder_ne_slash (d : DateTime) :
    ∀ c ∈ (dateFolder d).data, c ≠ '/' := by
  simp only [dateFolder, sdata_append]
  exact all_ne_slash_append _ _
    (all_ne_slash_append _ _
      (all_ne_slash_append _ _
        (all_ne_slash_append _ _ (padNat_ne_slash 4 d.year) (by decide))
        (padNat_ne_slash 2 d.month))
      (by decide))
    (padNat_ne_slash 2 d.day)

theorem dateFolder_ne_nil (d : DateTime) : (dateFolder d).data ≠ [] := by
  simp only [dateFolder, sdata_append]
  exact append_ne_nil_left _ _
    (append_ne_nil_left _ _
      (append_ne_nil_left _ _
        (append_ne_nil_left _ _ (padNat_ne_nil 4 d.year))))

theorem gcamName_ne_slash (d : DateTime) :
    ∀ c ∈ (gcamName d).data, c ≠ '/' := by
  simp only [gcamName, sdata_append]
  exact all_ne_slash_append _ _
    (all_ne_slash_append _ _
      (all_ne_slash_append _ _
        (all_ne_slash_append _ _
          (all_ne_slash_append _ _
            (all_ne_slash_append _ _
              (all_ne_slash_append _ _
                (all_ne_slash_append _ _ (by decide) (padNat_ne_slash 2 d.day))
                (padNat_ne_slash 2 d.month))
              (padNat_ne_slash 4 d.year))
            (by decide))
          (padNat_ne_slash 2 d.hour))
        (padNat_ne_slash 2 d.minute))
      (padNat_ne_slash 2 d.second))
    (by decide)

theorem gcamName_ne_nil (d : DateTime) : (gcamName d).data ≠ [] := by
  simp only [gcamName, sdata_append]
  exact append_ne_nil_left _ _
    (append_ne_nil_left _ _
      (append_ne_nil_left _ _
        (append_ne_nil_left _ _
          (append_ne_nil_left _ _
            (append_ne_nil_left _ _
              (append_ne_nil_left _ _
                (append_ne_nil_left _ _ (by decide))))))))

theorem head?_append_of_ne_nil (l l' : List Char) (h : l ≠ []) :
    (l ++ l').head? = l.head? := by
  cases l with
  | nil => exact absurd rfl h
  | cons a t => rfl

theorem head?_ne_slash_of (l : List Char) (h : ∀ c ∈ l, c ≠ '/') :
    l.head? ≠ some '/' := by
  cases l with
  | nil => simp
  | cons a t =>
    intro he
    exact h a (by simp) (by simpa using he)

theorem getLast?_ne_slash_of (l : List Char) (h : ∀ c ∈ l, c ≠ '/') :
    l.getLast? ≠ some '/' := by
  intro he
  rcases List.mem_getLast?_eq_getLast (show '/' ∈ l.getLast? from he) with ⟨hne, hl⟩
  exact h _ (List.getLast_mem hne) hl.symm

theorem chain'_of_slashFree (l : List Char) :
    (∀ c ∈ l, c ≠ '/') → List.Chain' slashR l := by
  induction l with
  | nil => intro _; simp
  | cons a t ih =>
    intro h
    cases t with
    | nil => simp
    | cons b t2 =>
      rw [List.chain'_cons]
      exact ⟨fun hab => h b (by simp) hab.2,
        ih fun c hc => h c (List.mem_cons_of_mem a hc)⟩

/-- Appending `'/' :: x` to a double-slash-free list whose last character
is not a slash, where `x` is slash-free and non-empty, stays double-slash
free with a non-slash last character. -/
theorem chain'_append_slash (p x : List Char)
    (hp : List.Chain' slashR p) (hpl : p.getLast? ≠ some '/')
    (hx : ∀ c ∈ x, c ≠ '/') (hxn : x ≠ []) :
    List.Chain' slashR (p ++ '/' :: x) ∧
      (p ++ '/' :: x).getLast? ≠ some '/' := by
  constructor
  · rw [List.chain'_append]
    refine ⟨hp, ?_, ?_⟩
    · cases x with
      | nil => simp
      | cons b t =>
        rw [List.chain'_cons]
        exact ⟨fun hab => hx b (by simp) hab.2, chain'_of_slashFree _ hx⟩
    · intro a ha y hy hconj
      apply hpl
      have haeq : a = '/' := hconj.1
      rw [← haeq]
      exact ha
  · rw [List.getLast?_append_of_ne_nil _ (by simp)]
    cases x with
    | nil => exact absurd rfl hxn
    | cons b t =>
      rw [List.getLast?_cons_cons]
      exact getLast?_ne_slash_of _ hx

theorem head?_dropWhile_not (p : Char → Bool) (l : List Char) :
    ∀ a, (l.dropWhile p).head? = some a → p a = false := by
  induction l with
  | nil => intro a h; simp [List.dropWhile] at h
  | cons b t ih =>
    intro a h
    rw [List.dropWhile_cons] at h
    split at h
    · exact ih a h
    · rename_i hb
      simp at h
      subst h
      simpa using hb

/-- `rstrip("/")` leaves no trailing slash. -/
theorem rstripSlash_no_trailing (s : String) :
    (rstripSlash s).data.getLast? ≠ some '/' := by
  unfold rstripSlash
  rw [sdata_mk, List.getLast?_reverse]
  intro he
  have := head?_dropWhile_not (fun c => c == '/') s.data.reverse '/' he
  simp at this

/-- A non-empty string has a non-empty character list. -/
theorem data_ne_nil_of_ne_empty (s : String) (h : s ≠ "") : s.data ≠ [] := by
  intro h0
  apply h
  cases s
  simp at h0
  rw [h0]

/-- The S3 key never has a doubled slash, provided the configured key
prefix itself has none and does not end with a slash. -/
theorem mkS3Key_noDoubleSlash (pfx : String) (d : DateTime)
    (h1 : List.Chain' slashR pfx.data) (hl : pfx.data.getLast? ≠ some '/') :
    noDoubleSlash (mkS3Key pfx d) := by
  unfold noDoubleSlash mkS3Key
  split
  · have step1 := chain'_append_slash pfx.data (dateFolder d).data h1 hl
      (dateFolder_ne_slash d) (dateFolder_ne_nil d)
    have step2 := chain'_append_slash (pfx.data ++ '/' :: (dateFolder d).data)
      (gcamName d).data step1.1 step1.2 (gcamName_ne_slash d) (gcamName_ne_nil d)
    have hshape : (pfx ++ "/" ++ dateFolder d ++ "/" ++ gcamName d).data =
        (pfx.data ++ '/' :: (dateFolder d).data) ++ '/' :: (gcamName d).data := by
      simp [sdata_append]
    rw [hshape]
    exact step2.1
  · have step1 := chain'_append_slash (dateFolder d).data (gcamName d).data
      (chain'_of_slashFree _ (dateFolder_ne_slash d))
      (getLast?_ne_slash_of _ (dateFolder_ne_slash d))
      (gcamName_ne_slash d) (gcamName_ne_nil d)
    have hshape : (dateFolder d ++ "/" ++ gcamName d).data =
        (dateFolder d).data ++ '/' :: (gcamName d).data := by
      simp [sdata_append]
    rw [hshape]
    exact step1.1

/-- The S3 key never starts with a slash, provided the configured key
prefix does not. -/
theorem mkS3Key_no_leading_slash (pfx : String) (d : DateTime)
    (h2 : pfx.data.head? ≠ some '/') :
    (mkS3Key pfx d).data.head? ≠ some '/' := by
  unfold mkS3Key
  split
  · rename_i hne
    have hpd : pfx.data ≠ [] := data_ne_nil_of_ne_empty pfx hne
    have hshape : (pfx ++ "/" ++ dateFolder d ++ "/" ++ gcamName d).data =
        pfx.data ++ ('/' :: (dateFolder d).data ++ '/' :: (gcamName d).data) := by
      simp [sdata_append]
    rw [hshape, head?_append_of_ne_nil _ _ hpd]
    exact h2
  · have hshape : (dateFolder d ++ "/" ++ gcamName d).data =
        (dateFolder d).data ++ '/' :: (gcamName d).data := by
      simp [sdata_append]
    rw [hshape, head?_append_of_ne_nil _ _ (dateFolder_ne_nil d)]
    exact head?_ne_slash_of _ (dateFolder_ne_slash d)

/-- `l[:-1]` of a list with fewer than two elements is empty. -/
theorem dropLast_of_short {α : Type} (l : List α) (h : l.length < 2) :
    l.dropLast = [] := by
  match l with
  | [] => rfl
  | [a] => rfl
  | a :: b :: t =>
    simp only [List.length_cons] at h
    omega

/-! ### Helpers about the selection, the loop and `main` -/

theorem get_files_eq_dropLast (listing : List DirEntry) :
    get_files_to_upload listing =
      (sortByMtime (listing.filter isMp4)).dropLast := by
  show (if (sortByMtime (listing.filter isMp4)).length < 2 then []
    else (sortByMtime (listing.filter isMp4)).dropLast) = _
  split
  · exact (dropLast_of_short _ (by assumption)).symm
  · rfl

theorem upload_countP_uploadCall (f : DirEntry) (bucket pfx rd : String)
    (oc : UploadOutcome) (fs : List DirEntry) :
    (upload_file_to_s3 f bucket pfx rd oc fs).trace.countP isUploadCall = 1 := by
  cases oc <;> rfl

theorem runUploads_countP_uploadCall (bucket pfx rd : String)
    (oracle : DirEntry → UploadOutcome) :
    ∀ (files fs : List DirEntry),
      (runUploads files bucket pfx rd oracle fs).2.countP isUploadCall =
        files.length := by
  intro files
  induction files with
  | nil => intro fs; rfl
  | cons f rest ih =>
    intro fs
    simp only [runUploads]
    rw [List.countP_append, upload_countP_uploadCall, ih]
    simp [Nat.add_comm]

theorem upload_countP_renameFrom (nm : String) (f : DirEntry)
    (bucket pfx rd : String) (oc : UploadOutcome) (fs : List DirEntry) :
    (upload_file_to_s3 f bucket pfx rd oc fs).trace.countP (isRenameFrom nm) =
      if f.name == nm then 1 else 0 := by
  by_cases h : f.name == nm <;>
    cases oc <;>
      simp [upload_file_to_s3, List.countP_cons, List.countP_append,
        isRenameFrom, h]

theorem runUploads_countP_renameFrom (nm bucket pfx rd : String)
    (oracle : DirEntry → UploadOutcome) :
    ∀ (files fs : List DirEntry),
      (runUploads files bucket pfx rd oracle fs).2.countP (isRenameFrom nm) =
        files.countP (fun g => g.name == nm) := by
  intro files
  induction files with
  | nil => intro fs; rfl
  | cons f rest ih =>
    intro fs
    simp only [runUploads]
    rw [List.countP_append, upload_countP_renameFrom, ih, List.countP_cons]
    by_cases h : f.name == nm <;> simp [h, Nat.add_comm]

theorem upload_trace_fs_indep (f : DirEntry) (bucket pfx rd : String)
    (oc : UploadOutcome) (fs : List DirEntry) :
    (upload_file_to_s3 f bucket pfx rd oc fs).trace =
      (upload_file_to_s3 f bucket pfx rd oc []).trace := by
  cases oc <;> rfl

theorem runUploads_trace_flatMap (bucket pfx rd : String)
    (oracle : DirEntry → UploadOutcome) :
    ∀ (files fs : List DirEntry),
      (runUploads files bucket pfx rd oracle fs).2 =
        files.flatMap (fun g =>
          (upload_file_to_s3 g bucket pfx rd (oracle g) []).trace) := by
  intro files
  induction files with
  | nil => intro fs; rfl
  | cons f rest ih =>
    intro fs
    simp only [runUploads, List.flatMap_cons]
    rw [ih, upload_trace_fs_indep]

theorem files_names_nodup (listing : List DirEntry)
    (hnd : (listing.map DirEntry.name).Nodup) :
    ((get_files_to_upload listing).map DirEntry.name).Nodup := by
  have hfiln : ((listing.filter isMp4).map DirEntry.name).Nodup :=
    List.Nodup.sublist
      (List.Sublist.map DirEntry.name (List.filter_sublist listing)) hnd
  have hsortn : ((sortByMtime (listing.filter isMp4)).map DirEntry.name).Nodup :=
    (((List.perm_insertionSort mtLe (listing.filter isMp4)).map
      DirEntry.name).symm).nodup hfiln
  rw [get_files_eq_dropLast]
  exact List.Nodup.sublist
    (List.Sublist.map DirEntry.name (List.dropLast_sublist _)) hsortn

theorem main_bad_env (env : Env) (listing : List DirEntry)
    (oracle : DirEntry → UploadOutcome)
    (h : (truthy env.aws_region && truthy env.s3_bucket_name) = false) :
    main env listing oracle =
      { result := .runtimeError "Missing required AWS env variables",
        fs := listing, trace := [] } := by
  unfold main
  simp [h]

theorem main_good_env_result (env : Env) (listing : List DirEntry)
    (oracle : DirEntry → UploadOutcome)
    (h : (truthy env.aws_region && truthy env.s3_bucket_name) = true) :
    (main env listing oracle).result = .exited 0 ∨
    (main env listing oracle).result = .finished := by
  unfold main
  simp only [h]
  split
  · simp_all
  · split <;> simp

/-! ### Claim theorems -/

/-- C1: the local copy is deleted only after the S3 upload call completed
successfully: on `BotoCoreError`/`ClientError` the function returns `False`
and no unlink happens; the unlink of the renamed file occurs only on the
success path, after the upload call, and then the function returns `True`. -/
theorem c1_delete_only_after_success (f : DirEntry) (bucket pfx rd : String)
    (oc : UploadOutcome) (fs : List DirEntry) :
    (oc ≠ .success →
      (upload_file_to_s3 f bucket pfx rd oc fs).ret = false ∧
      ∀ n, Event.unlinkFile n ∉ (upload_file_to_s3 f bucket pfx rd oc fs).trace) ∧
    (oc = .success →
      (upload_file_to_s3 f bucket pfx rd oc fs).ret = true ∧
      ∃ i j : Nat, i < j ∧
        (upload_file_to_s3 f bucket pfx rd oc fs).trace[i]? =
          some (Event.uploadCall
            (rd ++ "/" ++ gcamName (get_birth_datetime f.stat))
            bucket (mkS3Key pfx (get_birth_datetime f.stat))) ∧
        (upload_file_to_s3 f bucket pfx rd oc fs).trace[j]? =
          some (Event.unlinkFile (gcamName (get_birth_datetime f.stat)))) ∧
    (∀ n, Event.unlinkFile n ∈ (upload_file_to_s3 f bucket pfx rd oc fs).trace →
      oc = .success) := by
  cases oc with
  | success =>
    refine ⟨fun h => absurd rfl h, fun _ => ⟨rfl, 2, 3, by omega, rfl, rfl⟩,
      fun n _ => rfl⟩
  | botoCoreError m =>
    refine ⟨fun _ => ⟨rfl, fun n hn => ?_⟩, fun h => ?_, fun n hn => ?_⟩
    · simp [upload_file_to_s3] at hn
    · exact absurd h (by simp)
    · simp [upload_file_to_s3] at hn
  | clientError m =>
    refine ⟨fun _ => ⟨rfl, fun n hn => ?_⟩, fun h => ?_, fun n hn => ?_⟩
    · simp [upload_file_to_s3] at hn
    · exact absurd h (by simp)
    · simp [upload_file_to_s3] at hn

/-- Witness for C1 at concrete inputs: a failing upload returns `False`, a
successful one returns `True`. -/
theorem c1_delete_only_after_success_witness :
    (upload_file_to_s3 f0 "bkt" "" "recordings" (.botoCoreError "boom") []).ret
      = false ∧
    (upload_file_to_s3 f0 "bkt" "" "recordings" .success []).ret = true :=
  ⟨((c1_delete_only_after_success f0 "bkt" "" "recordings"
      (.botoCoreError "boom") []).1 (by decide)).1,
   ((c1_delete_only_after_success f0 "bkt" "" "recordings" .success []).2.1
      rfl).1⟩

/-- C2: `get_files_to_upload` returns exactly the regular `.mp4` files of
the listing, sorted by ascending modification time, with the last element
removed; a file strictly newest among the `.mp4` files is never returned.
(Directory listings have pairwise distinct names.) -/
theorem c2_get_files_to_upload_spec (listing : List DirEntry)
    (hnd : (listing.map DirEntry.name).Nodup) :
    get_files_to_upload listing = (sortByMtime (listing.filter isMp4)).dropLast ∧
    List.Sorted mtLe (get_files_to_upload listing) ∧
    (∀ f ∈ get_files_to_upload listing, isMp4 f = true ∧ f ∈ listing) ∧
    (∀ x ∈ listing, isMp4 x = true →
      (∀ y ∈ listing, y ≠ x → isMp4 y = true →
        y.stat.st_mtime < x.stat.st_mtime) →
      x ∉ get_files_to_upload listing) := by
  have hL : listing.Nodup := List.Nodup.of_map _ hnd
  have hfil : (listing.filter isMp4).Nodup := hL.filter _
  have hperm : (sortByMtime (listing.filter isMp4)).Perm (listing.filter isMp4) :=
    List.perm_insertionSort _ _
  have hsnd : (sortByMtime (listing.filter isMp4)).Nodup := hperm.symm.nodup hfil
  have hsorted : List.Sorted mtLe (sortByMtime (listing.filter isMp4)) :=
    List.sorted_insertionSort _ _
  have heq : get_files_to_upload listing =
      (sortByMtime (listing.filter isMp4)).dropLast := by
    show (if (sortByMtime (listing.filter isMp4)).length < 2 then []
      else (sortByMtime (listing.filter isMp4)).dropLast) = _
    split
    · exact (dropLast_of_short _ (by assumption)).symm
    · rfl
  refine ⟨heq, ?_, ?_, ?_⟩
  · rw [heq]
    exact List.Pairwise.sublist (List.dropLast_sublist _) hsorted
  · intro f hf
    rw [heq] at hf
    have hmem : f ∈ sortByMtime (listing.filter isMp4) :=
      (List.dropLast_sublist _).subset hf
    have := List.mem_filter.mp (hperm.subset hmem)
    exact ⟨this.2, this.1⟩
  · intro x hxL hxmp4 hmax hmem
    rw [heq] at hmem
    have hsne : sortByMtime (listing.filter isMp4) ≠ [] := by
      intro h0
      rw [h0] at hmem
      simp at hmem
    have hdecomp := List.dropLast_append_getLast hsne
    have hps : List.Pairwise mtLe
        ((sortByMtime (listing.filter isMp4)).dropLast ++
          [(sortByMtime (listing.filter isMp4)).getLast hsne]) := by
      rw [hdecomp]
      exact hsorted
    have hxle : mtLe x ((sortByMtime (listing.filter isMp4)).getLast hsne) := by
      rcases List.pairwise_append.mp hps with ⟨_, _, hrel⟩
      exact hrel x hmem _ (by simp)
    have hlmem : (sortByMtime (listing.filter isMp4)).getLast hsne ∈
        sortByMtime (listing.filter isMp4) := List.getLast_mem hsne
    have hlfil := List.mem_filter.mp (hperm.subset hlmem)
    by_cases hxy : (sortByMtime (listing.filter isMp4)).getLast hsne = x
    · have hnds : ((sortByMtime (listing.filter isMp4)).dropLast ++
          [(sortByMtime (listing.filter isMp4)).getLast hsne]).Nodup := by
        rw [hdecomp]
        exact hsnd
      rcases List.nodup_append.mp hnds with ⟨_, _, hdisj⟩
      exact hdisj hmem (by simp [hxy])
    · have hlt := hmax _ hlfil.1 hxy hlfil.2
      unfold mtLe at hxle
      omega

/-- Witness for C2: in a three-file listing the strictly newest `.mp4`
file is not selected for upload. -/
theorem c2_get_files_to_upload_spec_witness :
    f2 ∉ get_files_to_upload [f2, f0, f1] :=
  (c2_get_files_to_upload_spec [f2, f0, f1] (by decide)).2.2.2 f2 (by decide)
    (by decide) (by decide)

/-- C3: the renamed local file and the S3 object both carry the name
derived from the creation timestamp (`gcam_DDMMYYYY_HHMMSS.mp4` of the
birth datetime), where the creation datetime is `st_birthtime` when
available and `st_ctime` otherwise. -/
theorem c3_name_from_creation_timestamp (f : DirEntry) (bucket pfx rd : String)
    (oc : UploadOutcome) (fs : List DirEntry) :
    Event.renameFile f.name (gcamName (get_birth_datetime f.stat)) ∈
      (upload_file_to_s3 f bucket pfx rd oc fs).trace ∧
    Event.uploadCall (rd ++ "/" ++ gcamName (get_birth_datetime f.stat)) bucket
        (mkS3Key pfx (get_birth_datetime f.stat)) ∈
      (upload_file_to_s3 f bucket pfx rd oc fs).trace ∧
    (∃ folder, mkS3Key pfx (get_birth_datetime f.stat) =
      folder ++ "/" ++ gcamName (get_birth_datetime f.stat)) ∧
    (∀ b, f.stat.st_birthtime = some b → get_birth_datetime f.stat = b) ∧
    (f.stat.st_birthtime = none → get_birth_datetime f.stat = f.stat.st_ctime) := by
  refine ⟨?_, ?_, ?_, ?_, ?_⟩
  · cases oc <;> simp [upload_file_to_s3]
  · cases oc <;> simp [upload_file_to_s3]
  · unfold mkS3Key
    split
    · exact ⟨pfx ++ "/" ++ dateFolder (get_birth_datetime f.stat), rfl⟩
    · exact ⟨dateFolder (get_birth_datetime f.stat), rfl⟩
  · intro b hb
    unfold get_birth_datetime
    rw [hb]
  · intro hb
    unfold get_birth_datetime
    rw [hb]

/-- Witness for C3: with a birth time the name comes from it; without one
it comes from `st_ctime`. -/
theorem c3_name_from_creation_timestamp_witness :
    get_birth_datetime st0 = dt0 ∧ get_birth_datetime stN = dtC :=
  ⟨(c3_name_from_creation_timestamp f0 "bkt" "" "recordings" .success
      []).2.2.2.1 dt0 rfl,
   (c3_name_from_creation_timestamp f1 "bkt" "" "recordings" .success
      []).2.2.2.2 rfl⟩

/-- C10: on a failed upload the rename is not rolled back: the function
returns `False` and the file remains in the directory under its new
timestamp-derived `gcam` name. -/
theorem c10_rename_not_rolled_back (f : DirEntry) (bucket pfx rd m : String)
    (oc : UploadOutcome) (fs : List DirEntry)
    (hfail : oc.errMsg = some m) (hmem : f ∈ fs) :
    (upload_file_to_s3 f bucket pfx rd oc fs).fs =
      renameEntry fs f.name (gcamName (get_birth_datetime f.stat)) ∧
    { f with name := gcamName (get_birth_datetime f.stat) } ∈
      (upload_file_to_s3 f bucket pfx rd oc fs).fs ∧
    (upload_file_to_s3 f bucket pfx rd oc fs).ret = false ∧
    Event.renameFile f.name (gcamName (get_birth_datetime f.stat)) ∈
      (upload_file_to_s3 f bucket pfx rd oc fs).trace := by
  have hren : { f with name := gcamName (get_birth_datetime f.stat) } ∈
      renameEntry fs f.name (gcamName (get_birth_datetime f.stat)) := by
    apply List.mem_filterMap.mpr
    exact ⟨f, hmem, by simp⟩
  cases oc with
  | success => simp [UploadOutcome.errMsg] at hfail
  | botoCoreError m2 =>
    exact ⟨rfl, hren, rfl, by simp [upload_file_to_s3]⟩
  | clientError m2 =>
    exact ⟨rfl, hren, rfl, by simp [upload_file_to_s3]⟩

/-- Witness for C10: after a failed upload the concretely renamed file is
still present in the directory listing. -/
theorem c10_rename_not_rolled_back_witness :
    { f0 with name := gcamName dt0 } ∈
      (upload_file_to_s3 f0 "bkt" "" "recordings" (.clientError "denied")
        [f0, f1]).fs :=
  (c10_rename_not_rolled_back f0 "bkt" "" "recordings" "denied"
    (.clientError "denied") [f0, f1] rfl (by decide)).2.1

/-- C4 is refuted as stated: `rstrip("/")` strips only trailing slashes, so
with the environment value "/a" the configured prefix is the non-empty
string "/a" and the S3 key passed to the upload call starts with a slash. -/
theorem c4_counterexample :
    rstripSlash "/a" ≠ "" ∧
    Event.uploadCall ("recordings/" ++ gcamName dt0) "bkt"
        (mkS3Key (rstripSlash "/a") dt0) ∈
      (upload_file_to_s3 f0 "bkt" (rstripSlash "/a") "recordings" .success
        [f0]).trace ∧
    (mkS3Key (rstripSlash "/a") dt0).data.head? = some '/' := by
  refine ⟨by decide, by decide, by decide⟩

/-- C4 (amended): the key equals `<prefix>/<YYYY-MM-DD>/<name>` when the
configured prefix is non-empty and `<YYYY-MM-DD>/<name>` when it is empty.
The join itself introduces no leading or doubled slash (trailing slashes
are stripped from the prefix and the date and name contain no slash), but
a leading or internal doubled slash already present in the configured
prefix is preserved; under the added assumption that the configured prefix
has neither, the key has no leading or doubled slash. -/
theorem c4_amended_key_shape (f : DirEntry) (bucket rd envPfx : String)
    (oc : UploadOutcome) (fs : List DirEntry)
    (h1 : noDoubleSlash (rstripSlash envPfx))
    (h2 : (rstripSlash envPfx).data.head? ≠ some '/') :
    (rstripSlash envPfx ≠ "" →
      mkS3Key (rstripSlash envPfx) (get_birth_datetime f.stat) =
        rstripSlash envPfx ++ "/" ++ dateFolder (get_birth_datetime f.stat)
          ++ "/" ++ gcamName (get_birth_datetime f.stat)) ∧
    (rstripSlash envPfx = "" →
      mkS3Key (rstripSlash envPfx) (get_birth_datetime f.stat) =
        dateFolder (get_birth_datetime f.stat) ++ "/"
          ++ gcamName (get_birth_datetime f.stat)) ∧
    (mkS3Key (rstripSlash envPfx) (get_birth_datetime f.stat)).data.head?
      ≠ some '/' ∧
    noDoubleSlash (mkS3Key (rstripSlash envPfx) (get_birth_datetime f.stat)) ∧
    Event.uploadCall (rd ++ "/" ++ gcamName (get_birth_datetime f.stat)) bucket
        (mkS3Key (rstripSlash envPfx) (get_birth_datetime f.stat)) ∈
      (upload_file_to_s3 f bucket (rstripSlash envPfx) rd oc fs).trace := by
  refine ⟨?_, ?_, ?_, ?_, ?_⟩
  · intro hne
    unfold mkS3Key
    simp [hne]
  · intro he
    unfold mkS3Key
    simp [he]
  · exact mkS3Key_no_leading_slash _ _ h2
  · exact mkS3Key_noDoubleSlash _ _ h1 (rstripSlash_no_trailing envPfx)
  · cases oc <;> simp [upload_file_to_s3]

/-- Witness for the amended C4: with environment prefix "a/" the key has
no leading slash. -/
theorem c4_amended_key_shape_witness :
    (mkS3Key (rstripSlash "a/") dt0).data.head? ≠ some '/' :=
  (c4_amended_key_shape f0 "bkt" "recordings" "a/" .success []
    (show List.Chain' slashR (rstripSlash "a/").data from
      List.chain'_singleton 'a')
    (by decide)).2.2.1

/-- C5: on `BotoCoreError`/`ClientError` the handling is exactly one
printed message naming the file followed by returning `False`; there is
exactly one upload call (no retry), and the loop of `main` performs one
upload call per listed file whatever the outcomes are. -/
theorem c5_failure_handling (f : DirEntry) (bucket pfx rd m : String)
    (oc : UploadOutcome) (fs : List DirEntry) (hfail : oc.errMsg = some m) :
    (upload_file_to_s3 f bucket pfx rd oc fs).ret = false ∧
    (upload_file_to_s3 f bucket pfx rd oc fs).trace.countP isUploadCall = 1 ∧
    (∃ i : Nat,
      (upload_file_to_s3 f bucket pfx rd oc fs).trace[i]? =
        some (Event.uploadCall
          (rd ++ "/" ++ gcamName (get_birth_datetime f.stat)) bucket
          (mkS3Key pfx (get_birth_datetime f.stat))) ∧
      (upload_file_to_s3 f bucket pfx rd oc fs).trace.drop (i + 1) =
        [Event.printMsg ("S3 upload failed for " ++ f.name ++ ": " ++ m)]) ∧
    (∀ (files fs2 : List DirEntry) (oracle : DirEntry → UploadOutcome),
      (runUploads files bucket pfx rd oracle fs2).2.countP isUploadCall =
        files.length) := by
  cases oc with
  | success => simp [UploadOutcome.errMsg] at hfail
  | botoCoreError m2 =>
    have hm : m2 = m := by simpa [UploadOutcome.errMsg] using hfail
    subst hm
    exact ⟨rfl, upload_countP_uploadCall f bucket pfx rd (.botoCoreError m2) fs,
      ⟨2, rfl, rfl⟩,
      fun files fs2 oracle => runUploads_countP_uploadCall bucket pfx rd oracle
        files fs2⟩
  | clientError m2 =>
    have hm : m2 = m := by simpa [UploadOutcome.errMsg] using hfail
    subst hm
    exact ⟨rfl, upload_countP_uploadCall f bucket pfx rd (.clientError m2) fs,
      ⟨2, rfl, rfl⟩,
      fun files fs2 oracle => runUploads_countP_uploadCall bucket pfx rd oracle
        files fs2⟩

/-- Witness for C5 at a concrete failing upload. -/
theorem c5_failure_handling_witness :
    (upload_file_to_s3 f0 "bkt" "" "recordings" (.clientError "denied")
      []).ret = false :=
  (c5_failure_handling f0 "bkt" "" "recordings" "denied"
    (.clientError "denied") [] rfl).1

/-- C6: in a run of `main` every selected file is passed to the upload
function exactly once: each entry occurs once in the selected list, the
trace holds one upload call per selected file, and exactly one rename
originates from each selected file's name. -/
theorem c6_each_file_once (env : Env) (listing : List DirEntry)
    (oracle : DirEntry → UploadOutcome)
    (hr : truthy env.aws_region = true) (hb : truthy env.s3_bucket_name = true)
    (hnd : (listing.map DirEntry.name).Nodup) :
    (∀ f ∈ get_files_to_upload listing,
      (get_files_to_upload listing).count f = 1) ∧
    (main env listing oracle).trace.countP isUploadCall =
      (get_files_to_upload listing).length ∧
    (∀ f ∈ get_files_to_upload listing,
      (main env listing oracle).trace.countP (isRenameFrom f.name) = 1) := by
  have hnds := files_names_nodup listing hnd
  have hndf : (get_files_to_upload listing).Nodup := List.Nodup.of_map _ hnds
  have hand : (truthy env.aws_region && truthy env.s3_bucket_name) = true := by
    rw [hr, hb]
    rfl
  have hcnt1 : ∀ f ∈ get_files_to_upload listing,
      (get_files_to_upload listing).count f = 1 :=
    fun f hf => List.count_eq_one_of_mem hndf hf
  by_cases hfe : (get_files_to_upload listing).isEmpty
  · have hfil : get_files_to_upload listing = [] := List.isEmpty_iff.mp hfe
    have hmain : (main env listing oracle).trace =
        [Event.createClient (env.aws_region.getD ""), Event.scanDir "recordings",
         Event.printMsg "Not enough files to process"] := by
      unfold main
      simp [hand, hfe]
    refine ⟨hcnt1, ?_, ?_⟩
    · rw [hmain, hfil]
      rfl
    · intro f hf
      rw [hfil] at hf
      simp at hf
  · have hmain : (main env listing oracle).trace =
        [Event.createClient (env.aws_region.getD ""),
         Event.scanDir "recordings"] ++
        (runUploads (get_files_to_upload listing) (env.s3_bucket_name.getD "")
          (rstripSlash (env.s3_prefix.getD "")) "recordings" oracle
          listing).2 := by
      unfold main
      simp [hand, hfe]
    refine ⟨hcnt1, ?_, ?_⟩
    · rw [hmain, List.countP_append, runUploads_countP_uploadCall]
      have hpre0 : ([Event.createClient (env.aws_region.getD ""),
          Event.scanDir "recordings"] : List Event).countP isUploadCall = 0 :=
        rfl
      rw [hpre0]
      omega
    · intro f hf
      rw [hmain, List.countP_append, runUploads_countP_renameFrom]
      have hpre : ([Event.createClient (env.aws_region.getD ""),
          Event.scanDir "recordings"] : List Event).countP
            (isRenameFrom f.name) = 0 := rfl
      have h1 : (get_files_to_upload listing).countP
          (fun g => g.name == f.name) =
          ((get_files_to_upload listing).map DirEntry.name).countP
            (fun s => s == f.name) := by
        rw [List.countP_map]
        rfl
      have h2 : ((get_files_to_upload listing).map DirEntry.name).countP
          (fun s => s == f.name) = 1 := by
        rw [← List.count_eq_countP]
        exact List.count_eq_one_of_mem hnds (List.mem_map_of_mem _ hf)
      rw [hpre, h1, h2]

/-- Witness for C6 on a concrete three-file listing. -/
theorem c6_each_file_once_witness :
    (main ⟨some "eu", some "bkt", none⟩ [f2, f0, f1] orc0).trace.countP
      isUploadCall = (get_files_to_upload [f2, f0, f1]).length :=
  (c6_each_file_once ⟨some "eu", some "bkt", none⟩ [f2, f0, f1] orc0
    rfl rfl (by decide)).2.1

/-- C7: per file the operations happen in a fixed linear order: the rename
is the first event, the single upload call comes after it, and an unlink
happens only after the upload call and only on success; moreover the loop's
trace is the concatenation of per-file traces, each depending only on that
file and the configuration. -/
theorem c7_per_file_linear_order (f : DirEntry) (bucket pfx rd : String)
    (oc : UploadOutcome) (fs : List DirEntry) :
    (upload_file_to_s3 f bucket pfx rd oc fs).trace[0]? =
      some (Event.renameFile f.name (gcamName (get_birth_datetime f.stat))) ∧
    (upload_file_to_s3 f bucket pfx rd oc fs).trace[2]? =
      some (Event.uploadCall
        (rd ++ "/" ++ gcamName (get_birth_datetime f.stat)) bucket
        (mkS3Key pfx (get_birth_datetime f.stat))) ∧
    (upload_file_to_s3 f bucket pfx rd oc fs).trace.countP isUploadCall = 1 ∧
    (∀ (k : Nat) (n : String),
      (upload_file_to_s3 f bucket pfx rd oc fs).trace[k]? =
        some (Event.unlinkFile n) → 2 < k ∧ oc = .success) ∧
    (∀ (k : Nat) (o n : String),
      (upload_file_to_s3 f bucket pfx rd oc fs).trace[k]? =
        some (Event.renameFile o n) → k = 0) ∧
    (∀ (files fs2 : List DirEntry) (oracle : DirEntry → UploadOutcome),
      (runUploads files bucket pfx rd oracle fs2).2 =
        files.flatMap (fun g =>
          (upload_file_to_s3 g bucket pfx rd (oracle g) []).trace)) := by
  refine ⟨?_, ?_, ?_, ?_, ?_, ?_⟩
  · cases oc <;> rfl
  · cases oc <;> rfl
  · exact upload_countP_uploadCall f bucket pfx rd oc fs
  · intro k n hk
    cases oc with
    | success =>
      rcases k with _|_|_|_|_|k
      · simp [upload_file_to_s3] at hk
      · simp [upload_file_to_s3] at hk
      · simp [upload_file_to_s3] at hk
      · exact ⟨by omega, rfl⟩
      · simp [upload_file_to_s3] at hk
      · simp [upload_file_to_s3] at hk
    | botoCoreError m =>
      rcases k with _|_|_|_|k
      · simp [upload_file_to_s3] at hk
      · simp [upload_file_to_s3] at hk
      · simp [upload_file_to_s3] at hk
      · simp [upload_file_to_s3] at hk
      · simp [upload_file_to_s3] at hk
    | clientError m =>
      rcases k with _|_|_|_|k
      · simp [upload_file_to_s3] at hk
      · simp [upload_file_to_s3] at hk
      · simp [upload_file_to_s3] at hk
      · simp [upload_file_to_s3] at hk
      · simp [upload_file_to_s3] at hk
  · intro k o n hk
    cases oc with
    | success =>
      rcases k with _|_|_|_|_|k
      · rfl
      · simp [upload_file_to_s3] at hk
      · simp [upload_file_to_s3] at hk
      · simp [upload_file_to_s3] at hk
      · simp [upload_file_to_s3] at hk
      · simp [upload_file_to_s3] at hk
    | botoCoreError m =>
      rcases k with _|_|_|_|k
      · rfl
      · simp [upload_file_to_s3] at hk
      · simp [upload_file_to_s3] at hk
      · simp [upload_file_to_s3] at hk
      · simp [upload_file_to_s3] at hk
    | clientError m =>
      rcases k with _|_|_|_|k
      · rfl
      · simp [upload_file_to_s3] at hk
      · simp [upload_file_to_s3] at hk
      · simp [upload_file_to_s3] at hk
      · simp [upload_file_to_s3] at hk
  · exact fun files fs2 oracle =>
      runUploads_trace_flatMap bucket pfx rd oracle files fs2

/-- Witness for C7: at a concrete successful upload the first event is the
rename to the timestamp-derived name. -/
theorem c7_per_file_linear_order_witness :
    (upload_file_to_s3 f0 "bkt" "" "recordings" .success []).trace[0]? =
      some (Event.renameFile "a.mp4" (gcamName dt0)) :=
  (c7_per_file_linear_order f0 "bkt" "" "recordings" .success []).1

/-- C8: `main` raises `RuntimeError` exactly when `AWS_REGION` or
`S3_BUCKET` is unset or falsy, and in that case nothing else happens: no
client creation, no directory scan, no rename, upload or delete (empty
trace, unchanged directory). -/
theorem c8_env_check_before_effects (env : Env) (listing : List DirEntry)
    (oracle : DirEntry → UploadOutcome) :
    ((∃ m, (main env listing oracle).result = MainResult.runtimeError m) ↔
      (truthy env.aws_region = false ∨ truthy env.s3_bucket_name = false)) ∧
    ((truthy env.aws_region = false ∨ truthy env.s3_bucket_name = false) →
      (main env listing oracle).trace = [] ∧
      (main env listing oracle).fs = listing) := by
  constructor
  · constructor
    · rintro ⟨m, hm⟩
      by_contra hcon
      push_neg at hcon
      have hand : (truthy env.aws_region && truthy env.s3_bucket_name)
          = true := by
        have h1 : truthy env.aws_region = true := by
          cases hx : truthy env.aws_region
          · exact absurd hx hcon.1
          · rfl
        have h2 : truthy env.s3_bucket_name = true := by
          cases hx : truthy env.s3_bucket_name
          · exact absurd hx hcon.2
          · rfl
        rw [h1, h2]
        rfl
      rcases main_good_env_result env listing oracle hand with h | h <;>
        rw [hm] at h <;> exact MainResult.noConfusion h
    · intro h
      have hand : (truthy env.aws_region && truthy env.s3_bucket_name)
          = false := by
        rcases h with h | h <;> simp [h]
      exact ⟨"Missing required AWS env variables",
        by rw [main_bad_env env listing oracle hand]⟩
  · intro h
    have hand : (truthy env.aws_region && truthy env.s3_bucket_name)
        = false := by
      rcases h with h | h <;> simp [h]
    rw [main_bad_env env listing oracle hand]
    exact ⟨rfl, rfl⟩

/-- Witness for C8: with `AWS_REGION` unset, nothing is done. -/
theorem c8_env_check_before_effects_witness :
    (main ⟨none, some "bkt", none⟩ [f0, f1] orc0).trace = [] ∧
    (main ⟨none, some "bkt", none⟩ [f0, f1] orc0).fs = [f0, f1] :=
  (c8_env_check_before_effects ⟨none, some "bkt", none⟩ [f0, f1] orc0).2
    (Or.inl rfl)

/-- C9: with fewer than two `.mp4` files, `get_files_to_upload` returns
the empty list and `main` prints "Not enough files to process" and exits
with status 0, with no rename, upload or deletion. -/
theorem c9_not_enough_files (env : Env) (listing : List DirEntry)
    (oracle : DirEntry → UploadOutcome)
    (hr : truthy env.aws_region = true) (hb : truthy env.s3_bucket_name = true)
    (hf : (listing.filter isMp4).length < 2) :
    get_files_to_upload listing = [] ∧
    (main env listing oracle).result = MainResult.exited 0 ∧
    (main env listing oracle).trace =
      [Event.createClient (env.aws_region.getD ""), Event.scanDir "recordings",
       Event.printMsg "Not enough files to process"] ∧
    (main env listing oracle).fs = listing ∧
    (∀ e ∈ (main env listing oracle).trace,
      isRename e = false ∧ isUploadCall e = false ∧ isUnlink e = false) := by
  have hlen : (sortByMtime (listing.filter isMp4)).length < 2 := by
    have hpl := (List.perm_insertionSort mtLe (listing.filter isMp4)).length_eq
    unfold sortByMtime
    omega
  have hempty : get_files_to_upload listing = [] := by
    rw [get_files_eq_dropLast]
    exact dropLast_of_short _ hlen
  have hand : (truthy env.aws_region && truthy env.s3_bucket_name) = true := by
    rw [hr, hb]
    rfl
  have hmain : main env listing oracle =
      { result := .exited 0, fs := listing,
        trace := [.createClient (env.aws_region.getD ""), .scanDir "recordings",
                  .printMsg "Not enough files to process"] } := by
    unfold main
    simp [hand, hempty]
  refine ⟨hempty, by rw [hmain], by rw [hmain], by rw [hmain], ?_⟩
  rw [hmain]
  intro e he
  simp only [List.mem_cons, List.not_mem_nil, or_false] at he
  rcases he with rfl | rfl | rfl <;> exact ⟨rfl, rfl, rfl⟩

/-- Witness for C9 on a one-file listing. -/
theorem c9_not_enough_files_witness :
    get_files_to_upload [f0] = [] ∧
    (main ⟨some "eu", some "bkt", none⟩ [f0] orc0).result =
      MainResult.exited 0 := by
  have h := c9_not_enough_files ⟨some "eu", some "bkt", none⟩ [f0] orc0
    rfl rfl (by decide)
  exact ⟨h.1, h.2.1⟩

end Uploader
